import Mathlib

/-!
Verification of the `isjsonschemasubset` library: a shallow embedding of the
pydantic value model, the reference resolver `resolve` and the subset checker
`issubset` from `src/isjsonschemasubset/__init__.py`, together with proofs
about the behaviour of these functions.
-/

namespace IsJsonSchemaSubset

/-- Python float literals are carried opaquely: the library stores `float`
enum members and defaults but never computes with them, compares them only
structurally, and no verified statement depends on float semantics. -/
structure PyFloat where
  lit : String
deriving DecidableEq, Repr

/-- Scalar default payloads: the `None | bool | int | float | str` union used
for the `default` field of `AllOf` and `AnyOf` (the `None` case is
represented with `Option`). -/
inductive PyScalar where
  | b (x : Bool)
  | i (x : Int)
  | f (x : PyFloat)
  | s (x : String)
deriving DecidableEq, Repr

/-- The `Value` union of schema nodes. Each variant mirrors the pydantic
model of the same name, field for field; the shared `Base` fields
`title`/`description` are inlined into every variant, and Python `dict`s are
represented as insertion-ordered association lists. -/
inductive Value where
  | Null (title description : String)
  | Boolean (title description : String) (default : Option Bool)
  | Integer (title description : String) (enum : Option (List Int)) (default : Option Int)
  | Number (title description : String) (enum : Option (List PyFloat)) (default : Option PyFloat)
  | String (title description : String) (enum : Option (List String))
      (format : Option String) (default : Option String)
  | Array (title description : String) (items : Value)
  | Object (title description : String) (properties : List (String × Value))
      (required : List String)
  | AllOf (title description : String) (all_of : List Value) (default : Option PyScalar)
  | AnyOf (title description : String) (any_of : List Value) (default : Option PyScalar)
  | Ref (title description : String) (r : String)

/-- A definitions table: the `definitions: dict[str, Value]` of a schema
document, as an insertion-ordered association list with unique keys. -/
abbrev Defs := List (String × Value)

/-- The `JSONSchema` root document (its constant `type: "object"` field is
omitted). -/
structure JSONSchema where
  title : String
  definitions : Defs
  properties : List (String × Value)
  required : List String

/-- Discriminant of a `Value`, mirroring Python's `type(v)` for the node
classes. -/
inductive Tag where
  | tNull | tBoolean | tInteger | tNumber | tString
  | tArray | tObject | tAllOf | tAnyOf | tRef
deriving DecidableEq, Repr

/-- The tag of a node, i.e. which pydantic class it is an instance of. -/
def Value.tag : Value → Tag
  | .Null .. => .tNull
  | .Boolean .. => .tBoolean
  | .Integer .. => .tInteger
  | .Number .. => .tNumber
  | .String .. => .tString
  | .Array .. => .tArray
  | .Object .. => .tObject
  | .AllOf .. => .tAllOf
  | .AnyOf .. => .tAnyOf
  | .Ref .. => .tRef

/-- Whether a node is an `AnyOf`, mirroring `isinstance(v, AnyOf)`. -/
def Value.isAnyOf : Value → Bool
  | .AnyOf .. => true
  | _ => false

/-- Whether a node is one of the four primitive classes
`(Null, Boolean, Integer, Number)`. -/
def Value.isPrim : Value → Bool
  | .Null .. | .Boolean .. | .Integer .. | .Number .. => true
  | _ => false

/-- An incompatibility record, mirroring the `Error` dataclass: a path of
string segments, the two offending nodes, and a free-text message. -/
structure Error where
  path : List String
  a : Value
  b : Value
  msg : String

/-- Lookup in a Python `dict` represented as an association list
(`d[k]`, returning `none` where Python raises `KeyError`). -/
def plookup : List (String × Value) → String → Option Value
  | [], _ => none
  | (k, v) :: rest, n => if k = n then some v else plookup rest n

/-- In-place overwrite of the entry under key `k` of a Python `dict`
represented as an association list. -/
def pupdate (d : List (String × Value)) (k : String) (v : Value) : List (String × Value) :=
  d.map fun p => if p.1 = k then (k, v) else p

/-! ## The resolver -/

/-- Runtime faults that abort `resolve`: the `NotImplementedError` raised on
an unsupported `AllOf` shape, the `KeyError` raised by a failed
`definitions[name]` lookup, the `ValueError` raised when `ref.split("/")`
does not unpack into exactly three parts, the `ValueError` raised by
pydantic when assigning `default` on a model that declares no such field,
and an artificial out-of-fuel marker for the depth bound of the embedding
(the Python code recurses without an explicit bound). `badDefaultAssign`
marks a `v.default = o.default` assignment whose scalar does not match the
declared field type; pydantic (without assignment validation) would store it
unvalidated, a state the typed model cannot represent — no verified claim
evaluates this branch. -/
inductive Fault where
  | unsupportedAllOf
  | keyError (name : String)
  | unpackError
  | noFieldDefault
  | badDefaultAssign
  | fuelExhausted
deriving DecidableEq, Repr

/-- Split a character list at every occurrence of `sep`, keeping empty
segments, exactly as Python's `str.split` with an explicit separator does
(`"".split(sep)` is `[""]`, and adjacent separators produce `""`). -/
def splitChars (sep : Char) : List Char → List (List Char)
  | [] => [[]]
  | c :: rest =>
    let r := splitChars sep rest
    if c = sep then [] :: r
    else
      match r with
      | h :: t => (c :: h) :: t
      | [] => [[c]]

/-- Python's `s.split("/")` (the only separator the source uses is the
single character `/`). -/
def pySplit (s : String) (sep : Char) : List String :=
  (splitChars sep s.toList).map (fun cs => String.mk cs)

/-- Mirrors `_, __, name = o.ref.split("/")`: the trailing segment of a
`$ref` string of the form `#/<table>/<name>`; any other number of segments
raises (unpack `ValueError`). -/
def refName (r : String) : Except Fault String :=
  match pySplit r '/' with
  | [_, _, n] => .ok n
  | _ => .error .unpackError

/-- Mirrors the assignment `v.default = o.default` performed by the `AllOf`
branch of `resolve`. Variants without a `default` field make pydantic raise
(`noFieldDefault`); see `Fault` for the mismatched-scalar case. -/
def setDefault : Value → PyScalar → Except Fault Value
  | .Boolean t d _, .b x => .ok (.Boolean t d (some x))
  | .Integer t d e _, .i x => .ok (.Integer t d e (some x))
  | .Number t d e _, .f x => .ok (.Number t d e (some x))
  | .String t d e fm _, .s x => .ok (.String t d e fm (some x))
  | .AllOf t d l _, x => .ok (.AllOf t d l (some x))
  | .AnyOf t d l _, x => .ok (.AnyOf t d l (some x))
  | .Null _ _, _ => .error .noFieldDefault
  | .Array .., _ => .error .noFieldDefault
  | .Object .., _ => .error .noFieldDefault
  | .Ref .., _ => .error .noFieldDefault
  | _, _ => .error .badDefaultAssign

/-- Whether an `all_of` list is exactly one `Ref`, the only `AllOf` shape
`resolve` supports. -/
def isSingleRef : List Value → Bool
  | [.Ref _ _ _] => true
  | _ => false

/-- Resolve each element of a list in order, threading the definitions
table (which the `AllOf` branch may mutate) left to right exactly as the
Python list comprehension does. -/
def resolveEach (res : Value → Defs → Except Fault (Value × Defs)) :
    List Value → Defs → Except Fault (List Value × Defs)
  | [], defs => .ok ([], defs)
  | v :: rest, defs =>
    match res v defs with
    | .error e => .error e
    | .ok (v2, defs2) =>
      match resolveEach res rest defs2 with
      | .error e => .error e
      | .ok (rest2, defs3) => .ok (v2 :: rest2, defs3)

/-- Resolve each value of a properties `dict` in insertion order, threading
the definitions table. -/
def resolveProps (res : Value → Defs → Except Fault (Value × Defs)) :
    List (String × Value) → Defs → Except Fault (List (String × Value) × Defs)
  | [], defs => .ok ([], defs)
  | (k, v) :: rest, defs =>
    match res v defs with
    | .error e => .error e
    | .ok (v2, defs2) =>
      match resolveProps res rest defs2 with
      | .error e => .error e
      | .ok (rest2, defs3) => .ok ((k, v2) :: rest2, defs3)

/-- One step of `resolve(o: Value, definitions)`, with the recursive call
abstracted as `res`. Mirrors the `isinstance` dispatch of the source:
terminal nodes are returned unchanged; `Array`/`Object`/`AnyOf` are rebuilt
from recursively resolved children (with the rebuilt node's `title` and
`description` left at their `""` defaults, as in the source constructors);
`AllOf` must be a single `Ref`, whose target is looked up and returned
*without* a recursive resolution step, after the in-place
`v.default = o.default` assignment (which overwrites the definitions-table
entry) when the wrapper carries a non-`None` default; `Ref` looks up its
target and resolves it recursively. -/
def resolveStep (res : Value → Defs → Except Fault (Value × Defs)) :
    Value → Defs → Except Fault (Value × Defs)
  | o@(.Null ..), defs | o@(.Boolean ..), defs | o@(.Integer ..), defs
  | o@(.Number ..), defs | o@(.String ..), defs => .ok (o, defs)
  | .Array _ _ items, defs =>
    match res items defs with
    | .error e => .error e
    | .ok (items2, defs2) => .ok (.Array "" "" items2, defs2)
  | .Object _ _ props req, defs =>
    match resolveProps res props defs with
    | .error e => .error e
    | .ok (props2, defs2) => .ok (.Object "" "" props2 req, defs2)
  | .AllOf _ _ conj dflt, defs =>
    match conj with
    | [.Ref _ _ r] =>
      match refName r with
      | .error e => .error e
      | .ok name =>
        match plookup defs name with
        | none => .error (.keyError name)
        | some v =>
          match dflt with
          | none => .ok (v, defs)
          | some d =>
            match setDefault v d with
            | .error e => .error e
            | .ok v2 => .ok (v2, pupdate defs name v2)
    | _ => .error .unsupportedAllOf
  | .AnyOf _ _ vars dflt, defs =>
    match resolveEach res vars defs with
    | .error e => .error e
    | .ok (vars2, defs2) => .ok (.AnyOf "" "" vars2 dflt, defs2)
  | .Ref _ _ r, defs =>
    match refName r with
    | .error e => .error e
    | .ok name =>
      match plookup defs name with
      | none => .error (.keyError name)
      | some v => res v defs

/-- The recursive `resolve(o: Value, definitions)` overload, with a fuel
bound standing in for the Python call stack (the source recurses without a
bound and diverges on cyclic documents; every theorem below either supplies
ample fuel for its concrete input or holds for all fuel values). The result
pairs the resolved value with the (possibly mutated) definitions table. -/
def resolveV : Nat → Value → Defs → Except Fault (Value × Defs)
  | 0 => fun _ _ => .error .fuelExhausted
  | fuel + 1 => resolveStep (resolveV fuel)

/-- The `resolve(o: JSONSchema)` overload: build an `Object` from the
per-key resolved root properties, with the document's own definitions table
used for all lookups. -/
def resolveDoc (fuel : Nat) (s : JSONSchema) : Except Fault (Value × Defs) :=
  match fuel with
  | 0 => .error .fuelExhausted
  | fuel + 1 =>
    match resolveProps (resolveV fuel) s.properties s.definitions with
    | .error e => .error e
    | .ok (props2, defs2) => .ok (.Object "" "" props2 s.required, defs2)

/-! ## The subset checker -/

/-- A successful `plookup` returns an entry of the association list. -/
theorem plookup_mem : ∀ {ps : List (String × Value)} {k : String} {v : Value},
    plookup ps k = some v → (k, v) ∈ ps := by
  intro ps
  induction ps with
  | nil => intro k v h; simp [plookup] at h
  | cons p rest ih =>
    intro k v h
    obtain ⟨k0, v0⟩ := p
    by_cases hk : k0 = k
    · subst hk
      simp [plookup] at h
      simp [h]
    · simp [plookup, hk] at h
      exact List.mem_cons_of_mem _ (ih h)

/-- Values reachable through `plookup` are structurally smaller than the
association list holding them. -/
theorem sizeOf_lt_of_plookup {ps : List (String × Value)} {k : String} {v : Value}
    (h : plookup ps k = some v) : sizeOf v < sizeOf ps := by
  have hm := List.sizeOf_lt_of_mem (plookup_mem h)
  have : sizeOf (k, v) = 1 + sizeOf k + sizeOf v := rfl
  omega

/-- The iteration order of a CPython string-set difference
`set(xs) - set(ys)`: the source joins such a set with `", ".join(...)`, and
the order in which the set enumerates its elements is determined by the
interpreter's randomized string hashing, not by the source. The checker is
therefore parameterized by this enumeration; `AdmissibleDiff` states the
properties every enumeration of a set difference has. -/
def SetDiff : Type := List String → List String → List String

/-- What is true of every possible enumeration of `set(xs) - set(ys)`:
each element appears exactly once, and the elements are exactly the members
of `xs` that are not members of `ys`. -/
def AdmissibleDiff (sd : SetDiff) : Prop :=
  ∀ xs ys, (sd xs ys).Nodup ∧ ∀ e, e ∈ sd xs ys ↔ (e ∈ xs ∧ e ∉ ys)

/-- One concrete admissible enumeration (first-occurrence order), used to
instantiate theorems at concrete inputs. -/
def canonDiff : SetDiff := fun xs ys => xs.dedup.filter (fun e => decide (e ∉ ys))

/-- `canonDiff` is a valid enumeration of the set difference. -/
theorem canonDiff_admissible : AdmissibleDiff canonDiff := by
  intro xs ys
  constructor
  · exact (List.nodup_dedup xs).filter _
  · intro e
    simp [canonDiff, List.mem_filter, List.mem_dedup]

/-- The checker `issubset(a, b, path)`, yielding the error sequence as a
list (the Python generator is always drained eagerly by its consumers).
The arms mirror the `isinstance` dispatch chain of the source top to
bottom: `AnyOf` on the left, `AnyOf` on the right, `String`, the four
primitive tags compared by `type(a) != type(b)`, `Array`, `Object`, and the
defensive "Unknown type" catch-all. `sd` enumerates the string-set
difference used in the enum error message (see `SetDiff`). -/
def issubset (sd : SetDiff) : Value → Value → List String → List Error
  | .AnyOf _ _ vs _, b, path =>
    (vs.attach.map (fun v => issubset sd v.1 b path)).flatten
  | a, .AnyOf _ _ ws _, path =>
    let all := ws.attach.map (fun w => issubset sd a w.1 path)
    if all.all (fun errs => !errs.isEmpty) then all.flatten else []
  | .String t1 d1 e1 f1 df1, .String t2 d2 e2 f2 df2, path =>
    if f1 ≠ f2 then
      [⟨path, .String t1 d1 e1 f1 df1, .String t2 d2 e2 f2 df2, "String formats do not match"⟩]
    else
      match e2 with
      | none => []
      | some be =>
        match e1 with
        | none =>
          [⟨path, .String t1 d1 e1 f1 df1, .String t2 d2 e2 f2 df2,
            "Cannot fit any string into an Enum"⟩]
        | some ae =>
          if ae.any (fun x => !decide (x ∈ be)) then
            [⟨path, .String t1 d1 e1 f1 df1, .String t2 d2 e2 f2 df2,
              "Following keys not in a: " ++ String.intercalate ", " (sd ae be)⟩]
          else []
  | .String t1 d1 e1 f1 df1, b, path => [⟨path, .String t1 d1 e1 f1 df1, b, "Types don't match"⟩]
  | .Null _ _, .Null _ _, _ => []
  | .Null t1 d1, b, path => [⟨path, .Null t1 d1, b, "Types don't match"⟩]
  | .Boolean _ _ _, .Boolean _ _ _, _ => []
  | .Boolean t1 d1 df1, b, path => [⟨path, .Boolean t1 d1 df1, b, "Types don't match"⟩]
  | .Integer _ _ _ _, .Integer _ _ _ _, _ => []
  | .Integer t1 d1 e1 df1, b, path => [⟨path, .Integer t1 d1 e1 df1, b, "Types don't match"⟩]
  | .Number _ _ _ _, .Number _ _ _ _, _ => []
  | .Number t1 d1 e1 df1, b, path => [⟨path, .Number t1 d1 e1 df1, b, "Types don't match"⟩]
  | .Array _ _ i1, .Array _ _ i2, path => issubset sd i1 i2 (path ++ ["[]"])
  | .Array t1 d1 i1, b, path => [⟨path, .Array t1 d1 i1, b, "Types don't match"⟩]
  | .Object t1 d1 ps1 r1, .Object t2 d2 ps2 r2, path =>
    (ps2.attach.map (fun kv =>
      (if kv.1.1 ∈ r2 ∧ kv.1.1 ∉ ps1.map Prod.fst then
        [⟨path ++ [kv.1.1], .Object t1 d1 ps1 r1, .Object t2 d2 ps2 r2,
          "Key: " ++ kv.1.1 ++ " not in " ++ String.intercalate ", " (ps1.map Prod.fst)⟩]
      else []) ++
      ((plookup ps1 kv.1.1).attach.map
        (fun av => issubset sd av.1 kv.1.2 (path ++ [kv.1.1]))).getD [])).flatten
  | .Object t1 d1 ps1 r1, b, path => [⟨path, .Object t1 d1 ps1 r1, b, "Types don't match"⟩]
  | a, b, path => [⟨path, a, b, "Unknown type"⟩]
termination_by a b _ => sizeOf a + sizeOf b
decreasing_by
  · have := List.sizeOf_lt_of_mem v.2
    simp only [Value.AnyOf.sizeOf_spec]
    omega
  · have := List.sizeOf_lt_of_mem w.2
    simp only [Value.AnyOf.sizeOf_spec]
    omega
  · simp only [Value.Array.sizeOf_spec]
    omega
  · have h1 := sizeOf_lt_of_plookup (Option.mem_def.mp av.2)
    have h2 := List.sizeOf_lt_of_mem kv.2
    have h3 : sizeOf kv.1 = 1 + sizeOf kv.1.1 + sizeOf kv.1.2 := rfl
    simp only [Value.Object.sizeOf_spec]
    omega

/-! ## Unfolding equations for `issubset`

The checker is defined by well-founded recursion with `attach`-based
traversals for the termination argument; these lemmas restate each arm in
plain `List.map` form for use in proofs. -/

theorem attachMap_eq {α : Type _} {β : Type _} (l : List α) (F : {x // x ∈ l} → β) (G : α → β)
    (h : ∀ x : {x // x ∈ l}, F x = G x.1) : l.attach.map F = l.map G := by
  rw [show F = (fun x : {x // x ∈ l} => G x.1) from funext h]
  exact List.attach_map_val l G

/-- Arm 1: `a` is an `AnyOf` — recurse on every variant against `b` and
concatenate, in variant order. -/
theorem isb_anyOf_left (sd : SetDiff) (t d : String) (vs : List Value) (df : Option PyScalar)
    (b : Value) (path : List String) :
    issubset sd (.AnyOf t d vs df) b path = (vs.map (fun v => issubset sd v b path)).flatten := by
  rw [issubset]
  rw [List.attach_map_val vs (fun v => issubset sd v b path)]

/-- Arm 2: `a` is not an `AnyOf` and `b` is — if every variant of `b`
produced at least one error, emit all of them concatenated, else nothing. -/
theorem isb_anyOf_right (sd : SetDiff) (a : Value) (t d : String) (ws : List Value)
    (df : Option PyScalar) (path : List String) (ha : a.isAnyOf = false) :
    issubset sd a (.AnyOf t d ws df) path =
      (if (ws.map (fun w => issubset sd a w path)).all (fun errs => !errs.isEmpty) then
        (ws.map (fun w => issubset sd a w path)).flatten
      else []) := by
  cases a <;> simp [Value.isAnyOf] at ha <;>
    (rw [issubset] <;> try (intros; simp_all)) <;>
    rw [List.attach_map_val ws (fun w => issubset sd _ w path)]

/-- Arm 3, both `String`: format equality, then enum refinement. -/
theorem isb_str_str (sd : SetDiff) (t1 d1 : String) (e1 : Option (List String))
    (f1 : Option String) (df1 : Option String) (t2 d2 : String) (e2 : Option (List String))
    (f2 : Option String) (df2 : Option String) (path : List String) :
    issubset sd (.String t1 d1 e1 f1 df1) (.String t2 d2 e2 f2 df2) path =
      (if f1 ≠ f2 then
        [⟨path, .String t1 d1 e1 f1 df1, .String t2 d2 e2 f2 df2, "String formats do not match"⟩]
      else
        match e2 with
        | none => []
        | some be =>
          match e1 with
          | none =>
            [⟨path, .String t1 d1 e1 f1 df1, .String t2 d2 e2 f2 df2,
              "Cannot fit any string into an Enum"⟩]
          | some ae =>
            if ae.any (fun x => !decide (x ∈ be)) then
              [⟨path, .String t1 d1 e1 f1 df1, .String t2 d2 e2 f2 df2,
                "Following keys not in a: " ++ String.intercalate ", " (sd ae be)⟩]
            else []) := by
  cases e2 <;> cases e1 <;> rw [issubset]

/-- Arm 5, both `Array`: covariant recursion on the element types at path
segment `"[]"`. -/
theorem isb_arr_arr (sd : SetDiff) (t1 d1 : String) (i1 : Value) (t2 d2 : String) (i2 : Value)
    (path : List String) :
    issubset sd (.Array t1 d1 i1) (.Array t2 d2 i2) path =
      issubset sd i1 i2 (path ++ ["[]"]) := by
  rw [issubset]

/-- Arm 6, both `Object`: one pass over `b.properties`, emitting a
missing-required-key error and/or recursing per key. -/
theorem isb_obj_obj (sd : SetDiff) (t1 d1 : String) (ps1 : List (String × Value))
    (r1 : List String) (t2 d2 : String) (ps2 : List (String × Value)) (r2 : List String)
    (path : List String) :
    issubset sd (.Object t1 d1 ps1 r1) (.Object t2 d2 ps2 r2) path =
      (ps2.map (fun kv =>
        (if kv.1 ∈ r2 ∧ kv.1 ∉ ps1.map Prod.fst then
          [⟨path ++ [kv.1], .Object t1 d1 ps1 r1, .Object t2 d2 ps2 r2,
            "Key: " ++ kv.1 ++ " not in " ++ String.intercalate ", " (ps1.map Prod.fst)⟩]
        else []) ++
        ((plookup ps1 kv.1).map (fun av => issubset sd av kv.2 (path ++ [kv.1]))).getD [])).flatten := by
  rw [issubset]
  refine congrArg List.flatten (attachMap_eq ps2 _ _ fun kv => ?_)
  rw [Option.attach_map_val (plookup ps1 kv.1.1)
    (fun av => issubset sd av kv.1.2 (path ++ [kv.1.1]))]

/-! ## Resolved trees and dictionary invariants -/

/-- A value drawn from the post-resolution model: only the eight tags
`Null`, `Boolean`, `Integer`, `Number`, `String`, `Array`, `Object`,
`AnyOf` occur anywhere in the tree — no `Ref` and no `AllOf`. -/
inductive Resolved : Value → Prop where
  | null (t d : String) : Resolved (.Null t d)
  | boolean (t d : String) (df : Option Bool) : Resolved (.Boolean t d df)
  | integer (t d : String) (e : Option (List Int)) (df : Option Int) :
      Resolved (.Integer t d e df)
  | number (t d : String) (e : Option (List PyFloat)) (df : Option PyFloat) :
      Resolved (.Number t d e df)
  | string (t d : String) (e : Option (List String)) (f : Option String) (df : Option String) :
      Resolved (.String t d e f df)
  | array (t d : String) (i : Value) (hi : Resolved i) : Resolved (.Array t d i)
  | object (t d : String) (ps : List (String × Value)) (r : List String)
      (hps : ∀ kv ∈ ps, Resolved kv.2) : Resolved (.Object t d ps r)
  | anyOf (t d : String) (vs : List Value) (df : Option PyScalar)
      (hvs : ∀ v ∈ vs, Resolved v) : Resolved (.AnyOf t d vs df)

/-- The Python data-model invariant that `Object.properties` is a `dict`:
in the association-list embedding, every properties list in the tree has
pairwise-distinct keys. -/
inductive UniqueProps : Value → Prop where
  | null (t d : String) : UniqueProps (.Null t d)
  | boolean (t d : String) (df : Option Bool) : UniqueProps (.Boolean t d df)
  | integer (t d : String) (e : Option (List Int)) (df : Option Int) :
      UniqueProps (.Integer t d e df)
  | number (t d : String) (e : Option (List PyFloat)) (df : Option PyFloat) :
      UniqueProps (.Number t d e df)
  | string (t d : String) (e : Option (List String)) (f : Option String) (df : Option String) :
      UniqueProps (.String t d e f df)
  | array (t d : String) (i : Value) (hi : UniqueProps i) : UniqueProps (.Array t d i)
  | object (t d : String) (ps : List (String × Value)) (r : List String)
      (hnd : (ps.map Prod.fst).Nodup) (hps : ∀ kv ∈ ps, UniqueProps kv.2) :
      UniqueProps (.Object t d ps r)
  | allOf (t d : String) (vs : List Value) (df : Option PyScalar)
      (hvs : ∀ v ∈ vs, UniqueProps v) : UniqueProps (.AllOf t d vs df)
  | anyOf (t d : String) (vs : List Value) (df : Option PyScalar)
      (hvs : ∀ v ∈ vs, UniqueProps v) : UniqueProps (.AnyOf t d vs df)
  | ref (t d : String) (r : String) : UniqueProps (.Ref t d r)

/-- Under unique keys, `plookup` finds exactly the entry that is present. -/
theorem plookup_eq_of_nodup : ∀ {ps : List (String × Value)},
    (ps.map Prod.fst).Nodup → ∀ {k : String} {v : Value}, (k, v) ∈ ps →
    plookup ps k = some v := by
  intro ps
  induction ps with
  | nil => intro _ k v h; simp at h
  | cons p rest ih =>
    intro hnd k v h
    obtain ⟨k0, v0⟩ := p
    simp only [List.map_cons, List.nodup_cons] at hnd
    rcases List.mem_cons.mp h with heq | hmem
    · cases heq
      simp [plookup]
    · have hk : k0 ≠ k := by
        intro hkk
        subst hkk
        exact hnd.1 (List.mem_map_of_mem Prod.fst hmem)
      simp [plookup, hk]
      exact ih hnd.2 hmem

/-- Helper step for the union-on-the-right rule: when `a` is not itself a
union and some variant of `b` fully matches, no error is emitted. -/
theorem anyOf_right_of_empty_notAnyOf (sd : SetDiff) (a : Value) (ha : a.isAnyOf = false)
    (t d : String) (ws : List Value) (df : Option PyScalar) (path : List String)
    (hex : ∃ w ∈ ws, issubset sd a w path = []) :
    issubset sd a (.AnyOf t d ws df) path = [] := by
  rw [isb_anyOf_right sd a t d ws df path ha]
  obtain ⟨w, hw, hempty⟩ := hex
  have hall : (ws.map (fun w => issubset sd a w path)).all (fun errs => !errs.isEmpty) = false := by
    apply List.all_eq_false.mpr
    exact ⟨issubset sd a w path, List.mem_map_of_mem _ hw, by simp [hempty]⟩
  simp [hall]

/-- Union on the right, for every `a`: if some variant of `b` fully
matches `a`, `issubset a b` emits nothing. -/
theorem anyOf_right_of_empty (sd : SetDiff) :
    ∀ (a : Value) (t d : String) (ws : List Value) (df : Option PyScalar) (path : List String),
      (∃ w ∈ ws, issubset sd a w path = []) →
      issubset sd a (.AnyOf t d ws df) path = [] := by
  suffices H : ∀ (n : Nat) (a : Value), sizeOf a ≤ n →
      ∀ (t d : String) (ws : List Value) (df : Option PyScalar) (path : List String),
        (∃ w ∈ ws, issubset sd a w path = []) →
        issubset sd a (.AnyOf t d ws df) path = [] by
    intro a; exact H (sizeOf a) a le_rfl
  intro n
  induction n using Nat.strongRecOn with
  | ind n ih =>
    intro a hsz t d ws df path hex
    cases ha : a.isAnyOf with
    | false => exact anyOf_right_of_empty_notAnyOf sd a ha t d ws df path hex
    | true =>
      obtain ⟨t', d', vs, df', rfl⟩ : ∃ t' d' vs df', a = Value.AnyOf t' d' vs df' := by
        cases a <;> simp [Value.isAnyOf] at ha <;> exact ⟨_, _, _, _, rfl⟩
      rw [isb_anyOf_left]
      apply List.flatten_eq_nil_iff.mpr
      intro l hl
      obtain ⟨v, hv, rfl⟩ := List.mem_map.mp hl
      obtain ⟨w, hw, hempty⟩ := hex
      rw [isb_anyOf_left] at hempty
      have hvw : issubset sd v w path = [] :=
        List.flatten_eq_nil_iff.mp hempty _ (List.mem_map_of_mem _ hv)
      have hsv : sizeOf v < sizeOf (Value.AnyOf t' d' vs df') := by
        have := List.sizeOf_lt_of_mem hv
        simp only [Value.AnyOf.sizeOf_spec]
        omega
      exact ih (sizeOf v) (by omega) v le_rfl t d ws df path ⟨w, hw, hvw⟩

/-- Reflexivity of the checker on resolved trees with dict-shaped
properties. -/
theorem issubset_self (sd : SetDiff) :
    ∀ (x : Value), Resolved x → UniqueProps x → ∀ (path : List String),
      issubset sd x x path = [] := by
  intro x hres
  induction hres with
  | null t d => intro _ path; rw [issubset]
  | boolean t d df => intro _ path; rw [issubset]
  | integer t d e df => intro _ path; rw [issubset]
  | number t d e df => intro _ path; rw [issubset]
  | string t d e f df =>
    intro _ path
    rw [isb_str_str]
    rw [if_neg (by simp)]
    cases e with
    | none => rfl
    | some ae =>
      have : (ae.any fun x => !decide (x ∈ ae)) = false := by
        simp
      simp [this]
  | array t d i hi ih =>
    intro hu path
    rw [isb_arr_arr]
    cases hu with
    | array _ _ _ hui => exact ih hui (path ++ ["[]"])
  | object t d ps r hps ih =>
    intro hu path
    cases hu with
    | object _ _ _ _ hnd hups =>
      rw [isb_obj_obj]
      apply List.flatten_eq_nil_iff.mpr
      intro l hl
      obtain ⟨kv, hkv, rfl⟩ := List.mem_map.mp hl
      have hkey : kv.1 ∈ ps.map Prod.fst := List.mem_map_of_mem Prod.fst hkv
      have hlook : plookup ps kv.1 = some kv.2 := plookup_eq_of_nodup hnd (by simpa using hkv)
      have hrec := ih kv hkv (hups kv hkv) (path ++ [kv.1])
      simp [hkey, hlook, hrec]
  | anyOf t d vs df hvs ih =>
    intro hu path
    cases hu with
    | anyOf _ _ _ _ huvs =>
      rw [isb_anyOf_left]
      apply List.flatten_eq_nil_iff.mpr
      intro l hl
      obtain ⟨v, hv, rfl⟩ := List.mem_map.mp hl
      exact anyOf_right_of_empty sd v t d vs df path ⟨v, hv, ih v hv (huvs v hv) path⟩

/-! ## Well-formed documents

The spec's well-formedness invariants for a schema document: every `AllOf`
consists of exactly one `Ref` conjunct, every reference target is present
in the definitions table, and the reference graph is acyclic. A `WFValue`
derivation is finite, so following references can never loop: the predicate
captures all three invariants at once. -/

inductive WFValue (defs : Defs) : Value → Prop where
  | null (t d : String) : WFValue defs (.Null t d)
  | boolean (t d : String) (df : Option Bool) : WFValue defs (.Boolean t d df)
  | integer (t d : String) (e : Option (List Int)) (df : Option Int) :
      WFValue defs (.Integer t d e df)
  | number (t d : String) (e : Option (List PyFloat)) (df : Option PyFloat) :
      WFValue defs (.Number t d e df)
  | string (t d : String) (e : Option (List String)) (f : Option String) (df : Option String) :
      WFValue defs (.String t d e f df)
  | array (t d : String) (i : Value) (hi : WFValue defs i) : WFValue defs (.Array t d i)
  | object (t d : String) (ps : List (String × Value)) (r : List String)
      (hps : ∀ kv ∈ ps, WFValue defs kv.2) : WFValue defs (.Object t d ps r)
  | anyOf (t d : String) (vs : List Value) (df : Option PyScalar)
      (hvs : ∀ v ∈ vs, WFValue defs v) : WFValue defs (.AnyOf t d vs df)
  | allOf (t d t' d' r : String) (df : Option PyScalar) (n : String) (v : Value)
      (hn : refName r = .ok n) (hv : plookup defs n = some v) (hwf : WFValue defs v) :
      WFValue defs (.AllOf t d [.Ref t' d' r] df)
  | ref (t d r : String) (n : String) (v : Value) (hn : refName r = .ok n)
      (hv : plookup defs n = some v) (hwf : WFValue defs v) : WFValue defs (.Ref t d r)

/-- A well-formed schema document: every definitions-table entry and every
root property is well formed against the document's definitions table. -/
def WFDoc (s : JSONSchema) : Prop :=
  (∀ kv ∈ s.definitions, WFValue s.definitions kv.2) ∧
  (∀ kv ∈ s.properties, WFValue s.definitions kv.2)

/-! ## Concrete documents exhibiting the resolver's divergences from the
spec -/

/-- A well-formed document whose root property is an `AllOf` wrapper around
definition `A`, where `A` is itself a reference to the terminal definition
`B`. -/
def doc1 : JSONSchema :=
  { title := "T"
    definitions := [("A", .Ref "" "" "#/$defs/B"), ("B", .String "" "" none none none)]
    properties := [("p", .AllOf "" "" [.Ref "" "" "#/$defs/A"] none)]
    required := [] }

/-- A well-formed document with an `AllOf` wrapper that carries a default
(property `p`) and a plain reference to the same definition (property
`q`). -/
def doc2 : JSONSchema :=
  { title := "T"
    definitions := [("A", .String "" "" none none none)]
    properties := [("p", .AllOf "" "" [.Ref "" "" "#/$defs/A"] (some (.s "x"))),
                   ("q", .Ref "" "" "#/$defs/A")]
    required := [] }

/-- Claim C1 (code bug). The `AllOf` branch of `resolve` returns the
looked-up definition `definitions[name]` without resolving it recursively
(at odds with its own docstring, "Recursively inline the definitions"): on
the well-formed document `doc1` — acyclic, all reference targets present,
the single `AllOf` being exactly one `Ref` — the returned tree still
contains the `Ref` node `#/$defs/B`, so the invariant that no `Ref`/`AllOf`
survives resolution fails. -/
theorem c1_allOf_target_left_unresolved :
    WFDoc doc1
    ∧ resolveDoc 10 doc1 = .ok (.Object "" "" [("p", .Ref "" "" "#/$defs/B")] [], doc1.definitions)
    ∧ ¬ Resolved (.Object "" "" [("p", .Ref "" "" "#/$defs/B")] []) := by
  refine ⟨⟨?_, ?_⟩, rfl, ?_⟩
  · intro kv hkv
    simp [doc1] at hkv
    rcases hkv with rfl | rfl
    · exact WFValue.ref "" "" "#/$defs/B" "B" (.String "" "" none none none) rfl rfl
        (WFValue.string "" "" none none none)
    · exact WFValue.string "" "" none none none
  · intro kv hkv
    simp [doc1] at hkv
    subst hkv
    exact WFValue.allOf "" "" "" "" "#/$defs/A" none "A" (.Ref "" "" "#/$defs/B") rfl rfl
      (WFValue.ref "" "" "#/$defs/B" "B" (.String "" "" none none none) rfl rfl
        (WFValue.string "" "" none none none))
  · intro h
    cases h with
    | object _ _ _ _ hps =>
      have hmem : (("p", Value.Ref "" "" "#/$defs/B") : String × Value)
          ∈ [(("p", Value.Ref "" "" "#/$defs/B") : String × Value)] := by simp
      cases hps _ hmem

/-- Claim C2 (code bug). The assignment `v.default = o.default` in the
`AllOf` branch of `resolve` mutates the definitions-table entry itself, so
the input document is changed: resolving `doc2` overwrites the `default` of
definition `A` with `"x"`, and the later plain reference `q` to `A`
silently observes the overridden default. The returned table differs from
`doc2.definitions`, contradicting the claim that `resolve` leaves its input
structurally unchanged. -/
theorem c2_resolve_mutates_definitions :
    WFDoc doc2
    ∧ resolveDoc 10 doc2 =
        .ok (.Object "" ""
          [("p", .String "" "" none none (some "x")), ("q", .String "" "" none none (some "x"))]
          [],
          [("A", .String "" "" none none (some "x"))])
    ∧ [("A", Value.String "" "" none none (some "x"))] ≠ doc2.definitions := by
  refine ⟨⟨?_, ?_⟩, rfl, ?_⟩
  · intro kv hkv
    simp [doc2] at hkv
    subst hkv
    exact WFValue.string "" "" none none none
  · intro kv hkv
    simp [doc2] at hkv
    rcases hkv with rfl | rfl
    · exact WFValue.allOf "" "" "" "" "#/$defs/A" (some (.s "x")) "A"
        (.String "" "" none none none) rfl rfl (WFValue.string "" "" none none none)
    · exact WFValue.ref "" "" "#/$defs/A" "A" (.String "" "" none none none) rfl rfl
        (WFValue.string "" "" none none none)
  · simp [doc2]

/-- Unfolding helper: one successful lookup step of the single-`Ref`
`AllOf` arm of `resolveStep`. -/
theorem resolveStep_allOf_singleRef (res : Value → Defs → Except Fault (Value × Defs))
    (t d t' d' r : String) (df : Option PyScalar) (defs : Defs) (n : String)
    (hn : refName r = .ok n) :
    resolveStep res (.AllOf t d [.Ref t' d' r] df) defs =
      (match plookup defs n with
       | none => .error (.keyError n)
       | some v =>
         match df with
         | none => .ok (v, defs)
         | some dd =>
           match setDefault v dd with
           | .error e => .error e
           | .ok v2 => .ok (v2, pupdate defs n v2)) := by
  simp only [resolveStep, hn]

/-- Claim C9: the resolver fails fast. An `AllOf` whose conjunct list is
not exactly one `Ref` aborts with the unsupported-`AllOf` fault; a
reference with an absent target — standing alone or as the `AllOf`
conjunct — aborts with the `KeyError` fault; and a fault in a child aborts
the enclosing resolution (shown for `Array` items and for the first root
property of a document), so no output tree is produced. -/
theorem c9_resolution_faults :
    (∀ (fuel : Nat) (t d : String) (l : List Value) (df : Option PyScalar) (defs : Defs),
      isSingleRef l = false →
      resolveV (fuel + 1) (.AllOf t d l df) defs = .error .unsupportedAllOf)
    ∧ (∀ (fuel : Nat) (t d t' d' r : String) (df : Option PyScalar) (defs : Defs) (n : String),
      refName r = .ok n → plookup defs n = none →
      resolveV (fuel + 1) (.AllOf t d [.Ref t' d' r] df) defs = .error (.keyError n))
    ∧ (∀ (fuel : Nat) (t d r : String) (defs : Defs) (n : String),
      refName r = .ok n → plookup defs n = none →
      resolveV (fuel + 1) (.Ref t d r) defs = .error (.keyError n))
    ∧ (∀ (fuel : Nat) (t d : String) (items : Value) (defs : Defs) (e : Fault),
      resolveV fuel items defs = .error e →
      resolveV (fuel + 1) (.Array t d items) defs = .error e)
    ∧ (∀ (fuel : Nat) (s : JSONSchema) (e : Fault) (k : String) (v : Value)
        (rest : List (String × Value)),
      s.properties = (k, v) :: rest → resolveV (fuel + 1) v s.definitions = .error e →
      resolveDoc (fuel + 2) s = .error e) := by
  refine ⟨?_, ?_, ?_, ?_, ?_⟩
  · intro fuel t d l df defs hl
    rw [resolveV]
    cases l with
    | nil => rfl
    | cons v rest =>
      cases rest with
      | cons w rest2 => cases v <;> rfl
      | nil => cases v <;> first | rfl | simp [isSingleRef] at hl
  · intro fuel t d t' d' r df defs n hn hlook
    rw [resolveV, resolveStep_allOf_singleRef (resolveV fuel) t d t' d' r df defs n hn, hlook]
  · intro fuel t d r defs n hn hlook
    rw [resolveV]
    simp only [resolveStep, hn, hlook]
  · intro fuel t d items defs e h
    rw [resolveV]
    simp only [resolveStep, h]
  · intro fuel s e k v rest hprops hv
    simp only [resolveDoc, hprops, resolveProps, hv]

/-- A document whose single root property is a dangling reference. -/
def doc3 : JSONSchema :=
  { title := "T"
    definitions := []
    properties := [("p", .Ref "" "" "#/$defs/M")]
    required := [] }

/-- Witness for C9: each fault clause evaluated at a concrete input. -/
theorem c9_witness :
    resolveV 1 (.AllOf "" "" [] none) [] = .error .unsupportedAllOf
    ∧ resolveV 1 (.AllOf "" "" [.Ref "" "" "#/$defs/M"] none) [] = .error (.keyError "M")
    ∧ resolveV 1 (.Ref "" "" "#/$defs/M") [] = .error (.keyError "M")
    ∧ resolveV 2 (.Array "" "" (.Ref "" "" "#/$defs/M")) [] = .error (.keyError "M")
    ∧ resolveDoc 3 doc3 = .error (.keyError "M") :=
  ⟨c9_resolution_faults.1 0 "" "" [] none [] rfl,
   c9_resolution_faults.2.1 0 "" "" "" "" "#/$defs/M" none [] "M" rfl rfl,
   c9_resolution_faults.2.2.1 0 "" "" "#/$defs/M" [] "M" rfl rfl,
   c9_resolution_faults.2.2.2.1 1 "" "" (.Ref "" "" "#/$defs/M") [] (.keyError "M") rfl,
   c9_resolution_faults.2.2.2.2 1 doc3 (.keyError "M") "p" (.Ref "" "" "#/$defs/M") [] rfl rfl⟩

/-! ## Claims about the subset checker -/

/-- Claim C3: a union on the left is universal. For every `AnyOf` node on
the left, every `b` and every path, the checker's output is exactly the
concatenation, in variant order, of the per-variant outputs against `b`,
and is empty iff every variant is individually a subset of `b`. -/
theorem c3_anyOf_left_universal (sd : SetDiff) (t d : String) (vs : List Value)
    (df : Option PyScalar) (b : Value) (path : List String) :
    issubset sd (.AnyOf t d vs df) b path = (vs.map (fun v => issubset sd v b path)).flatten
    ∧ (issubset sd (.AnyOf t d vs df) b path = [] ↔ ∀ v ∈ vs, issubset sd v b path = []) := by
  refine ⟨isb_anyOf_left sd t d vs df b path, ?_⟩
  rw [isb_anyOf_left sd t d vs df b path, List.flatten_eq_nil_iff]
  constructor
  · intro h v hv
    exact h _ (List.mem_map_of_mem _ hv)
  · intro h l hl
    obtain ⟨v, hv, rfl⟩ := List.mem_map.mp hl
    exact h v hv

/-- Claim C4: a union on the right is existential. For every non-`AnyOf`
`a` and every `AnyOf` node on the right: if some variant fully matches,
nothing is emitted; if every variant produced at least one error, the
output is the concatenation, in variant order, of all the variants' full
error lists. -/
theorem c4_anyOf_right_existential (sd : SetDiff) (a : Value) (t d : String) (ws : List Value)
    (df : Option PyScalar) (path : List String) (ha : a.isAnyOf = false) :
    ((∃ w ∈ ws, issubset sd a w path = []) → issubset sd a (.AnyOf t d ws df) path = [])
    ∧ ((∀ w ∈ ws, issubset sd a w path ≠ []) →
      issubset sd a (.AnyOf t d ws df) path =
        (ws.map (fun w => issubset sd a w path)).flatten) := by
  constructor
  · exact anyOf_right_of_empty_notAnyOf sd a ha t d ws df path
  · intro hall
    rw [isb_anyOf_right sd a t d ws df path ha]
    have hcond : (ws.map fun w => issubset sd a w path).all (fun errs => !errs.isEmpty) = true := by
      rw [List.all_eq_true]
      intro x hx
      obtain ⟨w, hw, rfl⟩ := List.mem_map.mp hx
      simpa using hall w hw
    rw [hcond]
    simp

/-- Witness for C4 at a concrete input. -/
theorem c4_witness :
    (Value.Null "" "").isAnyOf = false
    ∧ (((∃ w ∈ [Value.Null "" ""], issubset canonDiff (.Null "" "") w [] = []) →
        issubset canonDiff (.Null "" "") (.AnyOf "" "" [.Null "" ""] none) [] = [])
      ∧ ((∀ w ∈ [Value.Null "" ""], issubset canonDiff (.Null "" "") w [] ≠ []) →
        issubset canonDiff (.Null "" "") (.AnyOf "" "" [.Null "" ""] none) [] =
          ([Value.Null "" ""].map (fun w => issubset canonDiff (.Null "" "") w [])).flatten)) :=
  ⟨rfl, c4_anyOf_right_existential canonDiff (.Null "" "") "" "" [.Null "" ""] none [] rfl⟩

/-- Claim C10: an empty union on the right accepts every non-`AnyOf` `a` —
the "all variants errored" test is vacuously true, but there are no error
lists to emit, so nothing is emitted. -/
theorem c10_anyOf_right_empty_variants (sd : SetDiff) (a : Value) (t d : String)
    (df : Option PyScalar) (path : List String) (ha : a.isAnyOf = false) :
    issubset sd a (.AnyOf t d [] df) path = [] := by
  rw [isb_anyOf_right sd a t d [] df path ha]
  simp

/-- Witness for C10 at a concrete input. -/
theorem c10_witness :
    (Value.Integer "" "" none none).isAnyOf = false
    ∧ issubset canonDiff (.Integer "" "" none none) (.AnyOf "" "" [] none) [] = [] :=
  ⟨rfl, c10_anyOf_right_empty_variants canonDiff (.Integer "" "" none none) "" "" none [] rfl⟩

/-- Claim C7: reflexivity. On every resolved tree (only the eight
post-resolution tags) whose property tables are dict-shaped (unique keys,
as Python dictionaries guarantee), the checker emits no errors against the
tree itself. -/
theorem c7_reflexivity (sd : SetDiff) (x : Value) (hres : Resolved x) (hu : UniqueProps x)
    (path : List String) : issubset sd x x path = [] :=
  issubset_self sd x hres hu path

/-- Witness for C7 at a concrete resolved object. -/
theorem c7_witness :
    Resolved (.Object "" "" [("a", .String "" "" none none none)] ["a"])
    ∧ UniqueProps (.Object "" "" [("a", .String "" "" none none none)] ["a"])
    ∧ issubset canonDiff (.Object "" "" [("a", .String "" "" none none none)] ["a"])
        (.Object "" "" [("a", .String "" "" none none none)] ["a"]) [] = [] := by
  have hres : Resolved (.Object "" "" [("a", .String "" "" none none none)] ["a"]) := by
    refine Resolved.object "" "" _ _ ?_
    intro kv hkv
    simp at hkv
    subst hkv
    exact Resolved.string "" "" none none none
  have hu : UniqueProps (.Object "" "" [("a", .String "" "" none none none)] ["a"]) := by
    refine UniqueProps.object "" "" _ _ (by simp) ?_
    intro kv hkv
    simp at hkv
    subst hkv
    exact UniqueProps.string "" "" none none none
  exact ⟨hres, hu, c7_reflexivity canonDiff _ hres hu []⟩

/-- The primitive-tag rule of the checker, proved by exhaustive case
analysis on both nodes. -/
theorem prim_tag_spec (sd : SetDiff) (a b : Value) (path : List String)
    (ha : a.isPrim = true) (hb : b.isAnyOf = false) :
    (issubset sd a b path = [] ↔ b.tag = a.tag)
    ∧ (b.tag ≠ a.tag → issubset sd a b path = [⟨path, a, b, "Types don't match"⟩]) := by
  cases a <;> simp [Value.isPrim] at ha <;>
    cases b <;> simp [Value.isAnyOf] at hb <;>
      (rw [issubset] <;> intros <;> simp_all [Value.tag])

/-- Claim C8: for a primitive `a` (Null, Boolean, Integer or Number) and a
non-`AnyOf` `b`, the checker emits nothing iff `b` carries the exact same
tag (whatever the enum/default fields hold), and exactly one
type-mismatch error otherwise; in particular Integer is never accepted as
a subset of Number. -/
theorem c8_primitive_exact_tag (sd : SetDiff) (a b : Value) (path : List String)
    (ha : a.isPrim = true) (hb : b.isAnyOf = false) :
    (issubset sd a b path = [] ↔ b.tag = a.tag)
    ∧ (b.tag ≠ a.tag → issubset sd a b path = [⟨path, a, b, "Types don't match"⟩])
    ∧ issubset sd (.Integer "" "" none none) (.Number "" "" none none) path ≠ [] := by
  refine ⟨(prim_tag_spec sd a b path ha hb).1, (prim_tag_spec sd a b path ha hb).2, ?_⟩
  rw [issubset] <;> intros <;> simp_all

/-- Witness for C8: Integer on the left, Number on the right — no numeric
widening, one type-mismatch error. -/
theorem c8_witness :
    (Value.Integer "" "" (some [3]) none).isPrim = true
    ∧ (Value.Number "" "" none none).isAnyOf = false
    ∧ ((issubset canonDiff (.Integer "" "" (some [3]) none) (.Number "" "" none none) [] = [] ↔
        (Value.Number "" "" none none).tag = (Value.Integer "" "" (some [3]) none).tag)
      ∧ ((Value.Number "" "" none none).tag ≠ (Value.Integer "" "" (some [3]) none).tag →
        issubset canonDiff (.Integer "" "" (some [3]) none) (.Number "" "" none none) [] =
          [⟨[], .Integer "" "" (some [3]) none, .Number "" "" none none, "Types don't match"⟩])
      ∧ issubset canonDiff (.Integer "" "" none none) (.Number "" "" none none) [] ≠ []) :=
  ⟨rfl, rfl,
   c8_primitive_exact_tag canonDiff (.Integer "" "" (some [3]) none) (.Number "" "" none none)
     [] rfl rfl⟩

/-- Claim C6: the `Object` rule examines exactly the keys of
`b.properties`. Per key, in order: one missing-required-key error (at the
extended path, naming the key and listing `a`'s property names) when the
key is required by `b` and absent from `a`, and a recursive check at the
extended path whenever the key is present in `a` (required or not); keys
of `b` that are optional and absent contribute nothing, and properties of
`a` that `b` does not mention are never examined (an empty `b.properties`
yields no errors whatever `a` offers). -/
theorem c6_object_properties (sd : SetDiff) (t1 d1 : String) (ps1 : List (String × Value))
    (r1 : List String) (t2 d2 : String) (ps2 : List (String × Value)) (r2 : List String)
    (path : List String) :
    (issubset sd (.Object t1 d1 ps1 r1) (.Object t2 d2 ps2 r2) path =
      (ps2.map (fun kv =>
        (if kv.1 ∈ r2 ∧ kv.1 ∉ ps1.map Prod.fst then
          [⟨path ++ [kv.1], .Object t1 d1 ps1 r1, .Object t2 d2 ps2 r2,
            "Key: " ++ kv.1 ++ " not in " ++ String.intercalate ", " (ps1.map Prod.fst)⟩]
        else []) ++
        ((plookup ps1 kv.1).map (fun av => issubset sd av kv.2 (path ++ [kv.1]))).getD [])).flatten)
    ∧ issubset sd (.Object t1 d1 ps1 r1) (.Object t2 d2 [] r2) path = [] := by
  refine ⟨isb_obj_obj sd t1 d1 ps1 r1 t2 d2 ps2 r2 path, ?_⟩
  rw [isb_obj_obj]
  simp

/-! ## Claim C5: string enum refinement -/

/-- Arm 3 when `b` has no enum: any `a` (with matching format) passes. -/
theorem isb_str_bnone (sd : SetDiff) (t1 d1 : String) (e1 : Option (List String))
    (f : Option String) (df1 : Option String) (t2 d2 : String) (df2 : Option String)
    (path : List String) :
    issubset sd (.String t1 d1 e1 f df1) (.String t2 d2 none f df2) path = [] := by
  rw [isb_str_str]
  simp

/-- Arm 3 when `b` has an enum and `a` has none. -/
theorem isb_str_anone (sd : SetDiff) (t1 d1 : String) (f : Option String) (df1 : Option String)
    (t2 d2 : String) (be : List String) (df2 : Option String) (path : List String) :
    issubset sd (.String t1 d1 none f df1) (.String t2 d2 (some be) f df2) path =
      [⟨path, .String t1 d1 none f df1, .String t2 d2 (some be) f df2,
        "Cannot fit any string into an Enum"⟩] := by
  rw [isb_str_str]
  simp

/-- Arm 3 when both carry enums: the set-difference test and message. -/
theorem isb_str_both (sd : SetDiff) (t1 d1 : String) (ae : List String) (f : Option String)
    (df1 : Option String) (t2 d2 : String) (be : List String) (df2 : Option String)
    (path : List String) :
    issubset sd (.String t1 d1 (some ae) f df1) (.String t2 d2 (some be) f df2) path =
      (if ae.any (fun x => !decide (x ∈ be)) then
        [⟨path, .String t1 d1 (some ae) f df1, .String t2 d2 (some be) f df2,
          "Following keys not in a: " ++ String.intercalate ", " (sd ae be)⟩]
      else []) := by
  rw [isb_str_str]
  simp

/-- Lexicographic comparison of character lists. -/
def lexLe : List Char → List Char → Bool
  | [], _ => true
  | _ :: _, [] => false
  | c :: cs, d :: ds => if c < d then true else if c = d then lexLe cs ds else false

/-- Lexicographic comparison of strings. -/
def strLeB (a b : String) : Bool := lexLe a.toList b.toList

/-- Sorted insertion of a string into a sorted list. -/
def insertStr (x : String) : List String → List String
  | [] => [x]
  | y :: r => if strLeB x y then x :: y :: r else y :: insertStr x r

/-- Insertion sort of a list of strings, lexicographically ascending. -/
def sortStrs : List String → List String
  | [] => []
  | x :: rest => insertStr x (sortStrs rest)

/-- Follows the spec's words for the enum-difference message order, "the
differing elements joined by `", "` in a stable, sorted order": the set
difference enumerated once per element, sorted lexicographically. Used
only to state the claim as written; the source joins an unordered set, so
its order is whatever the interpreter's set iteration yields. -/
def specSortedDiff (xs ys : List String) : List String :=
  sortStrs (xs.dedup.filter (fun e => decide (e ∉ ys)))

/-- Claim C5 as stated is false: no property of the source forces the
enum-difference message to list the differing elements in sorted order.
The first-occurrence enumeration `canonDiff` is an admissible set-difference
order, and under it the enums `a = {b, a}`, `b = {}` produce the message
"Following keys not in a: b, a", not the sorted "a, b". -/
theorem c5_counterexample :
    ¬ (∀ (sd : SetDiff), AdmissibleDiff sd →
      ∀ (t1 d1 : String) (ae : List String) (f : Option String) (df1 : Option String)
        (t2 d2 : String) (be : List String) (df2 : Option String) (path : List String),
        (∃ x ∈ ae, x ∉ be) →
        issubset sd (.String t1 d1 (some ae) f df1) (.String t2 d2 (some be) f df2) path =
          [⟨path, .String t1 d1 (some ae) f df1, .String t2 d2 (some be) f df2,
            "Following keys not in a: " ++ String.intercalate ", " (specSortedDiff ae be)⟩]) := by
  intro h
  have h2 := h canonDiff canonDiff_admissible "" "" ["b", "a"] none none "" "" [] none []
    ⟨"b", by simp, by simp⟩
  have hL : issubset canonDiff (.String "" "" (some ["b", "a"]) none none)
      (.String "" "" (some []) none none) [] =
      [⟨[], .String "" "" (some ["b", "a"]) none none, .String "" "" (some []) none none,
        "Following keys not in a: b, a"⟩] := by
    rw [isb_str_both]
    rfl
  rw [hL] at h2
  have hmsg : ("Following keys not in a: b, a" : String) =
      "Following keys not in a: " ++ String.intercalate ", " (specSortedDiff ["b", "a"] []) := by
    have := congrArg (fun l : List Error => (l.headD ⟨[], .Null "" "", .Null "" "", ""⟩).msg) h2
    simpa using this
  have hss : ("Following keys not in a: " : String) ++
      String.intercalate ", " (specSortedDiff ["b", "a"] []) = "Following keys not in a: a, b" := rfl
  rw [hss] at hmsg
  exact absurd hmsg (by decide)

/-- Claim C5, amended: for `String` nodes with equal formats, the checker
emits nothing iff `b` has no enum, or both have enums and `a`'s value set
is contained in `b`'s; it emits exactly the "Cannot fit any string into an
Enum" error when `b` has an enum and `a` has none; and when both have
enums with a non-empty difference it emits exactly one error whose message
joins, with `", "`, an enumeration of exactly the differing elements (each
once) — in the unspecified order of the runtime's set iteration, not
necessarily sorted. -/
theorem c5_enum_refinement (sd : SetDiff) (hsd : AdmissibleDiff sd) (t1 d1 : String)
    (e1 : Option (List String)) (f : Option String) (df1 : Option String) (t2 d2 : String)
    (e2 : Option (List String)) (df2 : Option String) (path : List String) :
    (issubset sd (.String t1 d1 e1 f df1) (.String t2 d2 e2 f df2) path = [] ↔
      (e2 = none ∨ ∃ ae be, e1 = some ae ∧ e2 = some be ∧ ∀ x ∈ ae, x ∈ be))
    ∧ (∀ be, e2 = some be → e1 = none →
      issubset sd (.String t1 d1 e1 f df1) (.String t2 d2 e2 f df2) path =
        [⟨path, .String t1 d1 e1 f df1, .String t2 d2 e2 f df2,
          "Cannot fit any string into an Enum"⟩])
    ∧ (∀ ae be, e1 = some ae → e2 = some be → (∃ x ∈ ae, x ∉ be) →
      (issubset sd (.String t1 d1 e1 f df1) (.String t2 d2 e2 f df2) path =
        [⟨path, .String t1 d1 e1 f df1, .String t2 d2 e2 f df2,
          "Following keys not in a: " ++ String.intercalate ", " (sd ae be)⟩]
        ∧ (sd ae be).Nodup ∧ ∀ x, x ∈ sd ae be ↔ (x ∈ ae ∧ x ∉ be))) := by
  cases e2 with
  | none =>
    simp only [isb_str_bnone]
    simp
  | some be =>
    cases e1 with
    | none =>
      simp only [isb_str_anone]
      refine ⟨by simp, ?_, ?_⟩
      · intro be' hbe' _
        cases hbe'
        trivial
      · intro ae' be' h1 _
        cases h1
    | some ae =>
      simp only [isb_str_both]
      by_cases hany : ∃ x ∈ ae, x ∉ be
      · have hb : (ae.any fun x => !decide (x ∈ be)) = true := by
          simpa [List.any_eq_true] using hany
        rw [hb]
        simp only [if_true]
        refine ⟨?_, ?_, ?_⟩
        · constructor
          · intro hcon
            cases hcon
          · rintro (hno | ⟨ae', be', hae', hbe', hsub⟩)
            · cases hno
            · cases hae'
              cases hbe'
              obtain ⟨x, hx, hnx⟩ := hany
              exact absurd (hsub x hx) hnx
        · intro be' _ h1
          cases h1
        · intro ae' be' hae' hbe' _
          cases hae'
          cases hbe'
          exact ⟨rfl, (hsd ae be).1, fun x => (hsd ae be).2 x⟩
      · push_neg at hany
        have hb : (ae.any fun x => !decide (x ∈ be)) = false := by
          rw [List.any_eq_false]
          intro x hx
          simp [hany x hx]
        rw [hb]
        simp only [Bool.false_eq_true, if_false]
        refine ⟨?_, ?_, ?_⟩
        · constructor
          · intro _
            exact Or.inr ⟨ae, be, rfl, rfl, fun x hx => hany x hx⟩
          · intro _
            trivial
        · intro be' _ h1
          cases h1
        · intro ae' be' hae' hbe' hex
          cases hae'
          cases hbe'
          obtain ⟨x, hx, hnx⟩ := hex
          exact absurd (hany x hx) hnx

/-- Witness for C5 (amended): enum containment accepted; enum excess
yields exactly one error naming the missing member. -/
theorem c5_witness :
    AdmissibleDiff canonDiff
    ∧ issubset canonDiff (.String "" "" (some ["a"]) none none)
        (.String "" "" (some ["a", "b"]) none none) [] = []
    ∧ issubset canonDiff (.String "" "" (some ["a", "b", "c"]) none none)
        (.String "" "" (some ["a", "b"]) none none) [] =
      [⟨[], .String "" "" (some ["a", "b", "c"]) none none,
        .String "" "" (some ["a", "b"]) none none, "Following keys not in a: c"⟩] := by
  refine ⟨canonDiff_admissible, ?_, ?_⟩
  · exact (c5_enum_refinement canonDiff canonDiff_admissible "" "" (some ["a"]) none none
      "" "" (some ["a", "b"]) none []).1.mpr (Or.inr ⟨["a"], ["a", "b"], rfl, rfl, by simp⟩)
  · have h := (c5_enum_refinement canonDiff canonDiff_admissible "" "" (some ["a", "b", "c"])
      none none "" "" (some ["a", "b"]) none []).2.2 ["a", "b", "c"] ["a", "b"] rfl rfl
      ⟨"c", by simp, by simp⟩
    exact h.1.trans (by rfl)

end IsJsonSchemaSubset
